import Mathlib

/-!
Verification of the SnippetsVault CLI (src/main.rs).

The program is a thin CLI around three pieces of logic:
  * a naming / content formatter (`create_snippet`),
  * an editor resolver (`get_default_editor` using `shellexpand::tilde`),
  * a command dispatcher (`main`).

We embed these shallowly.  Pure string formatting becomes Lean functions on
`String`; the side-effecting parts (directory creation, file write, process
spawning, printed messages, panics from `unwrap`/`expect`) become an explicit
trace of events, with the ambient filesystem and the exit statuses of spawned
processes supplied as inputs.  ANSI colour codes added by the `colored` crate
are omitted from message texts (the colouring wraps but does not change the
text).
-/

namespace SnippetsVault

/-- Rust: `const SNIPPET_DIR: &str = "Documents/myObsidianDoc/mysnippetsCollection";` -/
def SNIPPET_DIR : String := "Documents/myObsidianDoc/mysnippetsCollection"

/-- Rust `Vec::<String>::join(sep)`: empty list gives `""`, otherwise the
elements interleaved with `sep`. -/
def joinSep (sep : String) : List String → String
  | [] => ""
  | [x] => x
  | x :: xs => x ++ sep ++ joinSep sep xs

/-- The snippet root directory: `format!("{}/{}", home_dir, SNIPPET_DIR)`. -/
def snippetDir (home : String) : String := home ++ "/" ++ SNIPPET_DIR

/-- The filename built by `create_snippet` (src/main.rs:113-117):
`filename_parts = [timestamp, language] ++ tags`, joined with `"_"`, wrapped in
`format!("{}/snippet_{}.md", snippet_dir, ...)`. -/
def snippetFilename (home timestamp language : String) (tags : List String) : String :=
  snippetDir home ++ "/snippet_" ++ joinSep "_" (timestamp :: language :: tags) ++ ".md"

/-- The document body built by `create_snippet` (src/main.rs:120-123). -/
def snippetContent (language : String) (tags : List String) : String :=
  "# Title: " ++ language ++ " - Snippet\n# ---\n### Tags: " ++ joinSep ", " tags ++
    "\n\n### Content\n\n```" ++ language ++ "\n\n```\n### Link:\n### Note:\n"

/-- Rust `shellexpand::tilde`: expands a *leading tilde* (`"~"` alone or a
`"~/"` prefix) to the home directory; every other string — in particular one
starting with `"$HOME"` — is returned unchanged.  (The prefix test is done on
the character list of the string.) -/
def shellexpand_tilde (home path : String) : String :=
  if path = "~" then home
  else if "~/".data.isPrefixOf path.data then home ++ path.drop 1
  else path

/-- The fixed candidate list of `get_default_editor` (src/main.rs:318-323). -/
def editor_paths : List String :=
  ["$HOME/dev/nvim/bin/nvim",
   "$HOME/dev/neovim/build/bin/nvim",
   "$HOME/dev/neovim/bin/nvim",
   "/usr/local/bin/nvim"]

/-- The probing loop of `get_default_editor`: tilde-expand each candidate in
order, return the first expanded candidate that exists, else `"nvim"`.
`fsExists p` models `Path::new(&p).exists()`. -/
def getDefaultEditorLoop (fsExists : String → Bool) (home : String) :
    List String → String
  | [] => "nvim"
  | p :: ps =>
    let expanded := shellexpand_tilde home p
    if fsExists expanded then expanded else getDefaultEditorLoop fsExists home ps

/-- Editor resolution, `get_default_editor` (src/main.rs:317-333). -/
def get_default_editor (fsExists : String → Bool) (home : String) : String :=
  getDefaultEditorLoop fsExists home editor_paths

/-- One observable step of the program: printed lines, directory creation,
file writes, spawned external processes, and panics (from `unwrap`/`expect`). -/
inductive Event where
  | printed (msg : String)
  | createdDir (path : String)
  | wrote (path content : String)
  | spawned (prog : String) (args : List String)
  | panicked (msg : String)
  deriving DecidableEq, Repr

/-- The ambient environment a run observes: the `HOME` variable, which paths
exist on disk, and whether `fs::create_dir_all` / `fs::write` succeed. -/
structure Env where
  home : String
  fsExists : String → Bool
  mkdirOk : Bool
  writeOk : Bool

/-- The create action, `create_snippet` (src/main.rs:104-135), as a trace of events.
`editorStatus` / `glowStatus` are the `io::Result` outcomes of the two
`.status()` calls (`none` = spawn error, `some b` = exited, `b` = success);
the Rust code discards both with `let _ =`, so the trace never branches on
them.  A failing `unwrap` ends the trace with a `panicked` event. -/
def create_snippet (env : Env) (editorStatus glowStatus : Option Bool)
    (language : String) (tags : List String) (timestamp : String) : List Event :=
  let dir := snippetDir env.home
  let filename := snippetFilename env.home timestamp language tags
  let content := snippetContent language tags
  let afterDir : List Event :=
    if env.writeOk then
      [Event.wrote filename content,
       Event.printed ("✔ Snippet created: " ++ filename),
       Event.spawned (get_default_editor env.fsExists env.home) [filename],
       Event.spawned "glow" [filename]]
    else
      [Event.panicked "called Result::unwrap() on an Err value"]
  if env.fsExists dir then afterDir
  else if env.mkdirOk then
    Event.createdDir dir :: Event.printed ("✔ Directory created: " ++ dir) :: afterDir
  else
    [Event.panicked "called Result::unwrap() on an Err value"]

/-- The shell script `list_snippets` hands to `bash -c` (src/main.rs:145-158).
Braces and quotes are reproduced with escapes. -/
def listSnippetsScript (dir editor : String) : String :=
  "\n            if [[ \"$2\" != \"\" ]]; then\n                rga --files-with-matches $2 | fzf --sort --preview-window down:80%:wrap --preview \x27glow --style=dark \x7b\x7d\x27\n            else\n                if [[ -d \"" ++
  dir ++
  "\" ]]; then\n                    cd \"" ++
  dir ++
  "\" &&\n                        selected_article=$(fzf --exact --info=inline --border --margin=1 --padding=1 --sort --preview-window down:80%:wrap --preview \x27glow --style=dark \x7b\x7d\x27)\n                    " ++
  editor ++
  " $selected_article\n                fi\n            fi\n            "

/-- The list action, `list_snippets` (src/main.rs:137-172), as a trace.  `bashStatus` is the
`io::Result` of the `bash -c` invocation; `none` makes `.expect(...)` panic. -/
def list_snippets (env : Env) (bashStatus : Option Bool) : List Event :=
  let dir := snippetDir env.home
  if env.fsExists dir then
    let editor := get_default_editor env.fsExists env.home
    let spawn := Event.spawned "bash" ["-c", listSnippetsScript dir editor]
    match bashStatus with
    | none => [spawn, Event.panicked "Failed to execute shell commands"]
    | some true => [spawn]
    | some false => [spawn, Event.printed "✘ Failed to list snippets."]
  else
    [Event.printed "✘ Snippet directory does not exist."]

/-- The shell script `edit_snippet` hands to `bash -c` (src/main.rs:183-190). -/
def editSnippetScript (dir editor : String) : String :=
  "\n            cd \"" ++ dir ++
  "\"\n            IFS=$\x27\\n\x27 files=($(fzf --exact --info=inline --border --margin=1 --padding=1 --sort --preview-window down:80%:wrap --preview \x27glow --style=dark \x7b\x7d\x27))\n            [[ -n \"$files\" ]] && " ++
  editor ++ " \"$\x7bfiles[@]\x7d\"\n            "

/-- The edit action, `edit_snippet` (src/main.rs:175-204), as a trace. -/
def edit_snippet (env : Env) (bashStatus : Option Bool) : List Event :=
  let dir := snippetDir env.home
  if env.fsExists dir then
    let editor := get_default_editor env.fsExists env.home
    let spawn := Event.spawned "bash" ["-c", editSnippetScript dir editor]
    match bashStatus with
    | none => [spawn, Event.panicked "Failed to execute shell commands"]
    | some true => [spawn]
    | some false => [spawn, Event.printed "✘ Failed to edit snippets."]
  else
    [Event.printed "✘ Snippet directory does not exist."]

/-- The shell script `find_in_files` hands to `bash -c` (src/main.rs:216-224). -/
def findInFilesScript (dir term editor : String) : String :=
  "\n                cd \"" ++ dir ++
  "\" &&\n                rg --files-with-matches --no-messages \x27" ++ term ++
  "\x27 |\n                fzf --sort --preview-window down:80%:wrap --preview \"rg --ignore-case --pretty --context 10 --colors \x27match:bg:red\x27 --colors \x27match:fg:white\x27 \x27" ++
  term ++ "\x27 \x7b\x7d\" |\n                xargs -r " ++ editor ++ "\n                "

/-- The find action, `find_in_files` (src/main.rs:209-242), as a trace.  Note that the editor is
resolved *before* the existence check, but resolution spawns nothing. -/
def find_in_files (env : Env) (bashStatus : Option Bool) (searchTerm : String) :
    List Event :=
  let dir := snippetDir env.home
  let editor := get_default_editor env.fsExists env.home
  if env.fsExists dir then
    let spawn := Event.spawned "bash" ["-c", findInFilesScript dir searchTerm editor]
    match bashStatus with
    | none => [spawn, Event.panicked "Failed to execute search and open command"]
    | some true => [spawn]
    | some false =>
      [spawn,
       Event.printed ("✘ Failed to find or open files with the term \x27" ++ searchTerm ++ "\x27.")]
  else
    [Event.printed "✘ Snippet directory does not exist."]

/-- Whether an event is a panic. -/
def Event.isPanic : Event → Bool
  | Event.panicked _ => true
  | _ => false

/-- The process exit code a trace produces: a Rust panic aborts with code 101,
otherwise `main` returns `()` and the process exits 0. -/
def exitCodeOf (trace : List Event) : Nat :=
  if trace.any Event.isPanic then 101 else 0

/-- Whether an event is a process spawn. -/
def Event.isSpawn : Event → Bool
  | Event.spawned _ _ => true
  | _ => false

/-- The join at the character level (same recursion as `joinSep`, on `List Char`). -/
def joinSepL (sep : List Char) : List (List Char) → List Char
  | [] => []
  | [x] => x
  | x :: xs => x ++ sep ++ joinSepL sep xs

/-- Split a character list at every occurrence of `c`; for `c = '\n'` this is
the line structure of a string.  Always returns a non-empty list. -/
def splitOnChar (c : Char) : List Char → List (List Char)
  | [] => [[]]
  | x :: xs =>
    match splitOnChar c xs with
    | [] => [[]]
    | r :: rs => if x = c then [] :: r :: rs else (x :: r) :: rs

/-- The lines of a string, as character lists. -/
def linesOf (s : String) : List (List Char) := splitOnChar '\n' s.data

/-- A markdown fence line: a line starting with three backticks. -/
def isFence : List Char → Bool
  | '`' :: '`' :: '`' :: _ => true
  | _ => false

/-- The fence lines of the document produced by `create_snippet`. -/
def fenceLines (language : String) (tags : List String) : List (List Char) :=
  (linesOf (snippetContent language tags)).filter fun ln => isFence ln

/-- The contents of all files written during a trace. -/
def writtenContents (trace : List Event) : List String :=
  trace.filterMap fun e =>
    match e with
    | Event.wrote _ content => some content
    | _ => none

/-- The path formula exactly as the spec states it:
`<snippet_root>/snippet_<timestamp>_<language>[_<tag1>_<tag2>...].md`, the
tags appended after the language in the given order, each preceded by an
underscore.  Stated independently of the join used by the source, to be compared
with `snippetFilename`. -/
def specSnippetPath (root timestamp language : String) (tags : List String) : String :=
  root ++ "/snippet_" ++ timestamp ++ "_" ++ language ++
    (tags.foldl (fun acc tag => acc ++ "_" ++ tag) "") ++ ".md"

/-- A fully permissive environment: every path exists, all writes succeed. -/
def envAllOk : Env :=
  { home := "/h", fsExists := fun _ => true, mkdirOk := true, writeOk := true }

/-- An environment whose filesystem is empty (no path exists). -/
def envNoRoot : Env :=
  { home := "/h", fsExists := fun _ => false, mkdirOk := true, writeOk := false }

/-- A filesystem on which exactly the *expanded* first editor candidate for
home `/home/u` exists — the state the editor-resolution contract of the spec talks
about. -/
def fsExpandedFirstOnly : String → Bool := fun p => p == "/home/u/dev/nvim/bin/nvim"

/-! ### Helper lemmas about joining and splitting character lists -/

theorem joinSep_data (sep : String) (parts : List String) :
    (joinSep sep parts).data = joinSepL sep.data (parts.map String.data) := by
  induction parts with
  | nil => rfl
  | cons x xs ih =>
    cases xs with
    | nil => rfl
    | cons y ys =>
      simp only [joinSep, joinSepL, List.map_cons, String.data_append]
      rw [ih]
      simp [List.map_cons]

theorem append_sep_inj {c : Char} :
    ∀ (a b : List Char) {x y : List Char}, c ∉ a → c ∉ b →
      a ++ c :: x = b ++ c :: y → a = b ∧ x = y := by
  intro a
  induction a with
  | nil =>
    intro b x y _ hb h
    cases b with
    | nil => simpa using h
    | cons bh bt =>
      exfalso
      simp only [List.nil_append, List.cons_append, List.cons.injEq] at h
      exact hb (by simp [h.1])
  | cons ah aTail ih =>
    intro b x y ha hb h
    cases b with
    | nil =>
      exfalso
      simp only [List.cons_append, List.nil_append, List.cons.injEq] at h
      exact ha (by simp [h.1])
    | cons bh bt =>
      simp only [List.cons_append, List.cons.injEq] at h
      have ha' : c ∉ aTail := fun hm => ha (List.mem_cons_of_mem _ hm)
      have hb' : c ∉ bt := fun hm => hb (List.mem_cons_of_mem _ hm)
      obtain ⟨h1, h2⟩ := ih bt ha' hb' h.2
      exact ⟨by rw [h.1, h1], h2⟩

theorem mem_joinSepL_two (c : Char) (p q : List Char) (rest : List (List Char)) :
    c ∈ joinSepL [c] (p :: q :: rest) := by
  simp [joinSepL]

theorem joinSepL_cons_cons (c : Char) (p q : List Char) (rest : List (List Char)) :
    joinSepL [c] (p :: q :: rest) = p ++ c :: joinSepL [c] (q :: rest) := by
  simp [joinSepL]

theorem joinSepL_inj {c : Char} :
    ∀ (ps qs : List (List Char)), ps ≠ [] → qs ≠ [] →
      (∀ p ∈ ps, c ∉ p) → (∀ q ∈ qs, c ∉ q) →
      joinSepL [c] ps = joinSepL [c] qs → ps = qs := by
  intro ps
  induction ps with
  | nil => intro qs hne; exact absurd rfl hne
  | cons p ps' ih =>
    intro qs _ hqne hps hqs h
    cases qs with
    | nil => exact absurd rfl hqne
    | cons q qs' =>
      cases ps' with
      | nil =>
        cases qs' with
        | nil =>
          simp only [joinSepL] at h
          rw [h]
        | cons q2 qs'' =>
          exfalso
          have hc : c ∈ p := by
            simp only [joinSepL] at h
            rw [h]
            exact mem_joinSepL_two c q q2 qs''
          exact hps p (List.mem_cons_self p []) hc
      | cons p2 ps'' =>
        cases qs' with
        | nil =>
          exfalso
          have hc : c ∈ q := by
            simp only [joinSepL] at h
            rw [← h]
            exact mem_joinSepL_two c p p2 ps''
          exact hqs q (List.mem_cons_self q []) hc
        | cons q2 qs'' =>
          rw [joinSepL_cons_cons, joinSepL_cons_cons] at h
          obtain ⟨h1, h2⟩ :=
            append_sep_inj p q (hps p (by simp)) (hqs q (by simp)) h
          have htail : p2 :: ps'' = q2 :: qs'' :=
            ih (q2 :: qs'') (List.cons_ne_nil _ _) (List.cons_ne_nil _ _)
              (fun r hr => hps r (List.mem_cons_of_mem _ hr))
              (fun r hr => hqs r (List.mem_cons_of_mem _ hr)) h2
          rw [h1, htail]

theorem splitOnChar_ne_nil (c : Char) : ∀ xs, splitOnChar c xs ≠ [] := by
  intro xs
  induction xs with
  | nil => simp [splitOnChar]
  | cons x xs ih =>
    cases hs : splitOnChar c xs with
    | nil => exact absurd hs ih
    | cons r rs =>
      simp only [splitOnChar, hs]
      split <;> simp

theorem splitOnChar_of_not_mem {c : Char} :
    ∀ {xs : List Char}, c ∉ xs → splitOnChar c xs = [xs] := by
  intro xs
  induction xs with
  | nil => intro _; rfl
  | cons x xs ih =>
    intro h
    have hx : ¬x = c := fun e => h (by simp [e])
    have hxs : c ∉ xs := fun m => h (List.mem_cons_of_mem _ m)
    simp [splitOnChar, ih hxs, hx]

theorem splitOnChar_append {c : Char} :
    ∀ {a : List Char}, c ∉ a → ∀ (b : List Char),
      splitOnChar c (a ++ c :: b) = a :: splitOnChar c b := by
  intro a
  induction a with
  | nil =>
    intro _ b
    cases hs : splitOnChar c b with
    | nil => exact absurd hs (splitOnChar_ne_nil c b)
    | cons r rs => simp [splitOnChar, hs]
  | cons x a' ih =>
    intro h b
    have hx : ¬x = c := fun e => h (by simp [e])
    have ha' : c ∉ a' := fun m => h (List.mem_cons_of_mem _ m)
    have hrec := ih ha' b
    simp [splitOnChar, hrec, hx]

theorem not_mem_joinSepL {c : Char} {sep : List Char} (hsep : c ∉ sep) :
    ∀ (ps : List (List Char)), (∀ p ∈ ps, c ∉ p) → c ∉ joinSepL sep ps := by
  intro ps
  induction ps with
  | nil => intro _; simp [joinSepL]
  | cons p ps' ih =>
    intro h
    cases ps' with
    | nil => simpa [joinSepL] using h p (by simp)
    | cons q qs =>
      have h1 := h p (by simp)
      have h2 : c ∉ joinSepL sep (q :: qs) :=
        ih fun r hr => h r (List.mem_cons_of_mem _ hr)
      simp [joinSepL, List.mem_append, h1, h2, hsep]

theorem splitOnChar_joinSepL {c : Char} :
    ∀ (ps : List (List Char)), ps ≠ [] → (∀ p ∈ ps, c ∉ p) →
      splitOnChar c (joinSepL [c] ps) = ps := by
  intro ps
  induction ps with
  | nil => intro h; exact absurd rfl h
  | cons p ps' ih =>
    intro _ h
    cases ps' with
    | nil => simpa [joinSepL] using splitOnChar_of_not_mem (h p (by simp))
    | cons q qs =>
      rw [joinSepL_cons_cons, splitOnChar_append (h p (by simp)),
        ih (List.cons_ne_nil _ _) fun r hr => h r (List.mem_cons_of_mem _ hr)]

theorem foldl_tag_shift (xs : List String) :
    ∀ (a : String),
      xs.foldl (fun acc tag => acc ++ "_" ++ tag) a =
        a ++ xs.foldl (fun acc tag => acc ++ "_" ++ tag) "" := by
  induction xs with
  | nil => intro a; simp
  | cons x xs ih =>
    intro a
    simp only [List.foldl_cons]
    rw [ih (a ++ "_" ++ x), ih ("" ++ "_" ++ x)]
    simp [String.append_assoc]

theorem joinSep_underscore_cons :
    ∀ (xs : List String) (x : String),
      joinSep "_" (x :: xs) =
        x ++ xs.foldl (fun acc tag => acc ++ "_" ++ tag) "" := by
  intro xs
  induction xs with
  | nil => intro x; simp [joinSep]
  | cons y ys ih =>
    intro x
    have h1 : joinSep "_" (x :: y :: ys) = x ++ "_" ++ joinSep "_" (y :: ys) := by
      simp [joinSep]
    rw [h1, ih y]
    simp only [List.foldl_cons]
    rw [foldl_tag_shift ys ("" ++ "_" ++ y)]
    simp [String.append_assoc]

/-! ### Claim theorems -/

/-- C1: for every language, tag list and timestamp, `create_snippet` writes
the snippet at `<snippet_root>/snippet_<timestamp>_<language>[_<tag1>_<tag2>...].md`,
tags appended after the language in the given order, each part separated by a
single underscore; in particular for language `python`, tags `[loop, debug]`,
timestamp `2024-01-01-120000` the written path ends in
`snippet_2024-01-01-120000_python_loop_debug.md`. -/
theorem c1_path_format :
    (∀ (home timestamp language : String) (tags : List String),
        snippetFilename home timestamp language tags =
          specSnippetPath (snippetDir home) timestamp language tags)
    ∧ snippetFilename "/home/u" "2024-01-01-120000" "python" ["loop", "debug"] =
        "/home/u/Documents/myObsidianDoc/mysnippetsCollection/snippet_2024-01-01-120000_python_loop_debug.md"
    ∧ List.IsSuffix "snippet_2024-01-01-120000_python_loop_debug.md".data
        (snippetFilename "/home/u" "2024-01-01-120000" "python" ["loop", "debug"]).data := by
  refine ⟨?_, rfl, by decide⟩
  intro home t l tags
  simp only [snippetFilename, specSnippetPath]
  have h1 : joinSep "_" (t :: l :: tags) = t ++ "_" ++ joinSep "_" (l :: tags) := by
    simp [joinSep]
  rw [h1, joinSep_underscore_cons tags l]
  simp [String.append_assoc]

/-- C2 (amended): the filename is deterministic in `(timestamp, language,
tags)`, and — provided the timestamp, the language and every tag contain no
underscore — injective in the ordered triple. -/
theorem c2_filename_injective (home t1 l1 t2 l2 : String) (tags1 tags2 : List String)
    (ht1 : '_' ∉ t1.data) (hl1 : '_' ∉ l1.data) (htg1 : ∀ s ∈ tags1, '_' ∉ s.data)
    (ht2 : '_' ∉ t2.data) (hl2 : '_' ∉ l2.data) (htg2 : ∀ s ∈ tags2, '_' ∉ s.data) :
    snippetFilename home t1 l1 tags1 = snippetFilename home t2 l2 tags2 →
    t1 = t2 ∧ l1 = l2 ∧ tags1 = tags2 := by
  intro h
  have hd := congrArg String.data h
  simp only [snippetFilename, String.data_append, joinSep_data,
    List.append_assoc] at hd
  have hj : joinSepL ['_'] (List.map String.data (t1 :: l1 :: tags1)) =
      joinSepL ['_'] (List.map String.data (t2 :: l2 :: tags2)) := by
    have h1 := List.append_cancel_left hd
    have h2 := List.append_cancel_left h1
    exact List.append_cancel_right h2
  have hmem1 : ∀ p ∈ List.map String.data (t1 :: l1 :: tags1), '_' ∉ p := by
    intro p hp
    simp only [List.map_cons, List.mem_cons, List.mem_map] at hp
    rcases hp with rfl | rfl | ⟨s, hs, rfl⟩
    · exact ht1
    · exact hl1
    · exact htg1 s hs
  have hmem2 : ∀ p ∈ List.map String.data (t2 :: l2 :: tags2), '_' ∉ p := by
    intro p hp
    simp only [List.map_cons, List.mem_cons, List.mem_map] at hp
    rcases hp with rfl | rfl | ⟨s, hs, rfl⟩
    · exact ht2
    · exact hl2
    · exact htg2 s hs
  have hparts := joinSepL_inj _ _ (by simp) (by simp) hmem1 hmem2 hj
  simp only [List.map_cons, List.cons.injEq] at hparts
  obtain ⟨e1, e2, e3⟩ := hparts
  refine ⟨String.ext e1, String.ext e2, ?_⟩
  exact List.map_injective_iff.mpr (fun a b hab => String.ext hab) e3

/-- C2, witness: the injectivity theorem applied at equal concrete inputs. -/
theorem c2_witness :
    ("2024-01-01-120000" : String) = "2024-01-01-120000"
    ∧ ("python" : String) = "python"
    ∧ (["loop", "debug"] : List String) = ["loop", "debug"] :=
  c2_filename_injective "/h" "2024-01-01-120000" "python" "2024-01-01-120000"
    "python" ["loop", "debug"] ["loop", "debug"]
    (by decide) (by decide) (by decide) (by decide) (by decide) (by decide) rfl

/-- C2 fails as stated: the distinct tag lists `["a_b"]` and `["a", "b"]`
produce the same filename (underscores in the parts collide with the
separator). -/
theorem c2_counterexample :
    snippetFilename "/h" "2024-01-01-120000" "python" ["a_b"] =
      snippetFilename "/h" "2024-01-01-120000" "python" ["a", "b"]
    ∧ (["a_b"] : List String) ≠ ["a", "b"] :=
  ⟨rfl, by decide⟩

/-- C3: the code does *not* expand the `$HOME` placeholder —
`shellexpand::tilde` only expands a leading `~`.  On a filesystem where the
expanded first candidate `/home/u/dev/nvim/bin/nvim` exists (and nothing
else), `get_default_editor` nevertheless returns the bare fallback `"nvim"`,
which does not exist on disk, contradicting the claimed contract. -/
theorem c3_home_not_expanded :
    shellexpand_tilde "/home/u" "$HOME/dev/nvim/bin/nvim" = "$HOME/dev/nvim/bin/nvim"
    ∧ fsExpandedFirstOnly "/home/u/dev/nvim/bin/nvim" = true
    ∧ get_default_editor fsExpandedFirstOnly "/home/u" = "nvim"
    ∧ fsExpandedFirstOnly "nvim" = false := by
  refine ⟨?_, by decide, ?_, by decide⟩ <;>
    simp [shellexpand_tilde, get_default_editor, editor_paths, getDefaultEditorLoop,
      fsExpandedFirstOnly]

/-- C8: editor resolution is total and, when none of the candidates (as the
code actually checks them, i.e. after tilde expansion) exists, returns the
literal bare fallback `"nvim"`. -/
theorem c8_fallback (fsExists : String → Bool) (home : String)
    (h : ∀ p ∈ editor_paths, fsExists (shellexpand_tilde home p) = false) :
    get_default_editor fsExists home = "nvim" := by
  have h1 := h "$HOME/dev/nvim/bin/nvim" (by simp [editor_paths])
  have h2 := h "$HOME/dev/neovim/build/bin/nvim" (by simp [editor_paths])
  have h3 := h "$HOME/dev/neovim/bin/nvim" (by simp [editor_paths])
  have h4 := h "/usr/local/bin/nvim" (by simp [editor_paths])
  simp [get_default_editor, editor_paths, getDefaultEditorLoop, h1, h2, h3, h4]

/-- C8, witness: on an empty filesystem the resolver returns `"nvim"`. -/
theorem c8_fallback_witness :
    get_default_editor (fun _ => false) "/h" = "nvim" :=
  c8_fallback (fun _ => false) "/h" (fun _ _ => rfl)

/-- C10: the written document body does not depend on the timestamp — two
runs differing only in the timestamp write identical contents (the timestamp
influences only the filename). -/
theorem c10_content_timestamp_independent (env : Env)
    (editorStatus glowStatus : Option Bool) (language : String)
    (tags : List String) (t1 t2 : String) :
    writtenContents (create_snippet env editorStatus glowStatus language tags t1) =
      writtenContents (create_snippet env editorStatus glowStatus language tags t2) := by
  cases hfs : env.fsExists (snippetDir env.home) <;>
    cases hmk : env.mkdirOk <;>
      cases hw : env.writeOk <;>
        simp [create_snippet, writtenContents, hfs, hmk, hw]

/-- C5: when the snippet root directory does not exist, each of list, edit and
find spawns no external process, emits the missing-directory error message,
and returns gracefully (exit status 0, no panic) with no other action. -/
theorem c5_missing_root (env : Env) (bashStatus : Option Bool) (term : String)
    (h : env.fsExists (snippetDir env.home) = false) :
    list_snippets env bashStatus = [Event.printed "✘ Snippet directory does not exist."]
    ∧ edit_snippet env bashStatus = [Event.printed "✘ Snippet directory does not exist."]
    ∧ find_in_files env bashStatus term =
        [Event.printed "✘ Snippet directory does not exist."]
    ∧ (list_snippets env bashStatus).any Event.isSpawn = false
    ∧ (edit_snippet env bashStatus).any Event.isSpawn = false
    ∧ (find_in_files env bashStatus term).any Event.isSpawn = false
    ∧ exitCodeOf (list_snippets env bashStatus) = 0
    ∧ exitCodeOf (edit_snippet env bashStatus) = 0
    ∧ exitCodeOf (find_in_files env bashStatus term) = 0 := by
  simp [list_snippets, edit_snippet, find_in_files, h, exitCodeOf,
    Event.isSpawn, Event.isPanic]

/-- C5, witness: the three operations on an empty filesystem. -/
theorem c5_missing_root_witness :
    list_snippets envNoRoot none = [Event.printed "✘ Snippet directory does not exist."]
    ∧ edit_snippet envNoRoot none = [Event.printed "✘ Snippet directory does not exist."]
    ∧ find_in_files envNoRoot none "term" =
        [Event.printed "✘ Snippet directory does not exist."]
    ∧ (list_snippets envNoRoot none).any Event.isSpawn = false
    ∧ (edit_snippet envNoRoot none).any Event.isSpawn = false
    ∧ (find_in_files envNoRoot none "term").any Event.isSpawn = false
    ∧ exitCodeOf (list_snippets envNoRoot none) = 0
    ∧ exitCodeOf (edit_snippet envNoRoot none) = 0
    ∧ exitCodeOf (find_in_files envNoRoot none "term") = 0 :=
  c5_missing_root envNoRoot none "term" rfl

/-- C6: once the snippet file is written, the editor and preview invocations
are best-effort — the run is identical for any exit statuses of the two
spawned processes (they are discarded), the create action completes without
panicking, and it reports the created snippet. -/
theorem c6_best_effort (env : Env) (s1 s2 s1' s2' : Option Bool)
    (language : String) (tags : List String) (timestamp : String)
    (hw : env.writeOk = true)
    (hdir : env.fsExists (snippetDir env.home) = true ∨ env.mkdirOk = true) :
    create_snippet env s1 s2 language tags timestamp =
      create_snippet env s1' s2' language tags timestamp
    ∧ Event.printed ("✔ Snippet created: " ++ snippetFilename env.home timestamp language tags)
        ∈ create_snippet env s1 s2 language tags timestamp
    ∧ ∀ m, Event.panicked m ∉ create_snippet env s1 s2 language tags timestamp := by
  refine ⟨rfl, ?_, ?_⟩ <;>
    cases hfs : env.fsExists (snippetDir env.home) <;>
      simp_all [create_snippet, hw, hfs]

/-- C6, witness: a run with a failed editor spawn and a nonzero preview exit
behaves like one where both succeed. -/
theorem c6_best_effort_witness :
    create_snippet envAllOk none (some false) "python" ["loop"] "2024-01-01-120000" =
      create_snippet envAllOk (some true) (some true) "python" ["loop"] "2024-01-01-120000"
    ∧ Event.printed ("✔ Snippet created: " ++
          snippetFilename envAllOk.home "2024-01-01-120000" "python" ["loop"])
        ∈ create_snippet envAllOk none (some false) "python" ["loop"] "2024-01-01-120000"
    ∧ ∀ m, Event.panicked m ∉
        create_snippet envAllOk none (some false) "python" ["loop"] "2024-01-01-120000" :=
  c6_best_effort envAllOk none (some false) (some true) (some true)
    "python" ["loop"] "2024-01-01-120000" rfl (Or.inl rfl)

/-- C7: (assuming the mkdir call itself succeeds when attempted) the snippet
root is created recursively exactly when absent, the creation is reported,
and a failing file write is process-fatal — the trace is exactly the
directory events followed by a panic: nothing is spawned, no recovery and no
cleanup happens after the failed write. -/
theorem c7_mkdir_and_fatal_write (env : Env) (s1 s2 : Option Bool)
    (language : String) (tags : List String) (timestamp : String)
    (hmk : env.mkdirOk = true) :
    (Event.createdDir (snippetDir env.home) ∈
        create_snippet env s1 s2 language tags timestamp
      ↔ env.fsExists (snippetDir env.home) = false)
    ∧ (env.fsExists (snippetDir env.home) = false →
        Event.printed ("✔ Directory created: " ++ snippetDir env.home) ∈
          create_snippet env s1 s2 language tags timestamp)
    ∧ (env.writeOk = false →
        create_snippet env s1 s2 language tags timestamp =
          (if env.fsExists (snippetDir env.home) then []
           else [Event.createdDir (snippetDir env.home),
                 Event.printed ("✔ Directory created: " ++ snippetDir env.home)]) ++
            [Event.panicked "called Result::unwrap() on an Err value"]) := by
  cases hfs : env.fsExists (snippetDir env.home) <;>
    cases hw : env.writeOk <;>
      simp [create_snippet, hfs, hw, hmk]

/-- C7, witness: absent root and failing write — the directory is created and
reported, then the write panics with nothing after it. -/
theorem c7_mkdir_and_fatal_write_witness :
    (Event.createdDir (snippetDir envNoRoot.home) ∈
        create_snippet envNoRoot none none "python" [] "2024-01-01-120000"
      ↔ envNoRoot.fsExists (snippetDir envNoRoot.home) = false)
    ∧ (envNoRoot.fsExists (snippetDir envNoRoot.home) = false →
        Event.printed ("✔ Directory created: " ++ snippetDir envNoRoot.home) ∈
          create_snippet envNoRoot none none "python" [] "2024-01-01-120000")
    ∧ (envNoRoot.writeOk = false →
        create_snippet envNoRoot none none "python" [] "2024-01-01-120000" =
          (if envNoRoot.fsExists (snippetDir envNoRoot.home) then []
           else [Event.createdDir (snippetDir envNoRoot.home),
                 Event.printed ("✔ Directory created: " ++ snippetDir envNoRoot.home)]) ++
            [Event.panicked "called Result::unwrap() on an Err value"]) :=
  c7_mkdir_and_fatal_write envNoRoot none none "python" [] "2024-01-01-120000" rfl

/-- C4 (amended): provided the language and every tag contain no newline, the
produced document's lines are exactly: a title heading containing the
language, a `# ---` rule, a tags line with the tags comma-joined in the given
order, a blank line, the `### Content` heading, a blank line, a fence opened
with info-string = language, a blank line, the closing fence, then the empty
`### Link:` and `### Note:` headings; and its fence lines are exactly that one
opening fence and its closing fence (exactly one fenced code block, labelled
with the language). -/
theorem c4_content_structure (language : String) (tags : List String)
    (hl : '\n' ∉ language.data) (ht : ∀ s ∈ tags, '\n' ∉ s.data) :
    linesOf (snippetContent language tags) =
      [("# Title: " ++ language ++ " - Snippet").data,
       "# ---".data,
       ("### Tags: " ++ joinSep ", " tags).data,
       [],
       "### Content".data,
       [],
       ("```" ++ language).data,
       [],
       "```".data,
       "### Link:".data,
       "### Note:".data,
       []]
    ∧ fenceLines language tags = [("```" ++ language).data, "```".data] := by
  have d1 : (" - Snippet\n# ---\n### Tags: " : String).data =
      " - Snippet".data ++ '\n' :: "# ---".data ++ '\n' :: "### Tags: ".data := rfl
  have d2 : ("\n\n### Content\n\n```" : String).data =
      '\n' :: '\n' :: "### Content".data ++ '\n' :: '\n' :: "```".data := rfl
  have d3 : ("\n\n```\n### Link:\n### Note:\n" : String).data =
      '\n' :: '\n' :: "```".data ++ '\n' :: "### Link:".data ++
        '\n' :: "### Note:".data ++ ['\n'] := rfl
  have hkey : (snippetContent language tags).data =
      joinSepL ['\n']
        [("# Title: " ++ language ++ " - Snippet").data,
         "# ---".data,
         ("### Tags: " ++ joinSep ", " tags).data,
         [],
         "### Content".data,
         [],
         ("```" ++ language).data,
         [],
         "```".data,
         "### Link:".data,
         "### Note:".data,
         []] := by
    simp only [snippetContent, String.data_append, d1, d2, d3, joinSepL,
      List.append_assoc, List.cons_append, List.nil_append, List.append_nil,
      List.singleton_append]
  have nj : '\n' ∉ (joinSep ", " tags).data := by
    rw [joinSep_data]
    refine not_mem_joinSepL (by decide) _ ?_
    intro q hq
    obtain ⟨s, hs, rfl⟩ := List.mem_map.mp hq
    exact ht s hs
  have hlines : linesOf (snippetContent language tags) =
      [("# Title: " ++ language ++ " - Snippet").data,
       "# ---".data,
       ("### Tags: " ++ joinSep ", " tags).data,
       [],
       "### Content".data,
       [],
       ("```" ++ language).data,
       [],
       "```".data,
       "### Link:".data,
       "### Note:".data,
       []] := by
    rw [linesOf, hkey]
    apply splitOnChar_joinSepL _ (by simp)
    intro p hp
    have n1 : '\n' ∉ ("# Title: " : String).data := by decide
    have n2 : '\n' ∉ (" - Snippet" : String).data := by decide
    have n3 : '\n' ∉ ("# ---" : String).data := by decide
    have n4 : '\n' ∉ ("### Tags: " : String).data := by decide
    have n5 : '\n' ∉ ("### Content" : String).data := by decide
    have n6 : '\n' ∉ ("```" : String).data := by decide
    have n7 : '\n' ∉ ("### Link:" : String).data := by decide
    have n8 : '\n' ∉ ("### Note:" : String).data := by decide
    simp only [List.mem_cons, List.not_mem_nil, or_false] at hp
    rcases hp with rfl | rfl | rfl | rfl | rfl | rfl | rfl | rfl | rfl | rfl | rfl | rfl <;>
      simp_all [String.data_append, List.mem_append]
  refine ⟨hlines, ?_⟩
  have head1 : ("# Title: " : String).data = '#' :: " Title: ".data := rfl
  have head4 : ("### Tags: " : String).data = '#' :: "## Tags: ".data := rfl
  have f1 : isFence ("# Title: " ++ language ++ " - Snippet").data = false := by
    have e : ("# Title: " ++ language ++ " - Snippet").data =
        '#' :: (" Title: ".data ++ (language.data ++ " - Snippet".data)) := by
      simp [String.data_append, head1]
    rw [e]
    rfl
  have f3 : isFence ("### Tags: " ++ joinSep ", " tags).data = false := by
    have e : ("### Tags: " ++ joinSep ", " tags).data =
        '#' :: ("## Tags: ".data ++ (joinSep ", " tags).data) := by
      simp [String.data_append, head4]
    rw [e]
    rfl
  have f7 : isFence ("```" ++ language).data = true := by
    have e : ("```" ++ language).data = '`' :: '`' :: '`' :: language.data := by
      simp [String.data_append]
    rw [e]
    rfl
  have fc2 : isFence ("# ---" : String).data = false := rfl
  have fc4 : isFence ([] : List Char) = false := rfl
  have fc5 : isFence ("### Content" : String).data = false := rfl
  have fc9 : isFence ("```" : String).data = true := rfl
  have fc10 : isFence ("### Link:" : String).data = false := rfl
  have fc11 : isFence ("### Note:" : String).data = false := rfl
  rw [fenceLines, hlines]
  simp only [List.filter, f1, f3, f7, fc2, fc4, fc5, fc9, fc10, fc11]

/-- C4, witness: the structure theorem at language `python`,
tags `[loop, debug]`. -/
theorem c4_content_structure_witness :
    linesOf (snippetContent "python" ["loop", "debug"]) =
      [("# Title: " ++ "python" ++ " - Snippet").data,
       "# ---".data,
       ("### Tags: " ++ joinSep ", " ["loop", "debug"]).data,
       [],
       "### Content".data,
       [],
       ("```" ++ "python").data,
       [],
       "```".data,
       "### Link:".data,
       "### Note:".data,
       []]
    ∧ fenceLines "python" ["loop", "debug"] =
        [("```" ++ "python").data, "```".data] :=
  c4_content_structure "python" ["loop", "debug"] (by decide) (by decide)

/-- C4 fails as stated for arbitrary language strings: a language containing
a newline and backticks (here `"python\n```"`, with no tags) yields four
fence lines — more than one fenced code block — so the document does not
contain exactly one fenced block whose info-string is the language. -/
theorem c4_counterexample :
    fenceLines "python\n```" [] ≠ [("```" ++ "python\n```").data, "```".data]
    ∧ (fenceLines "python\n```" []).length = 4 := by
  constructor <;> decide

end SnippetsVault
